import Mathlib

/-!
# GpCore2: fiber task context, pooled stack adapter and bit writer storage

A shallow embedding of

* `Multithreading/Tasks/Fibers/boost_context.hpp` (`FiberArgsT`, `GpPooledStack`),
* `Multithreading/Tasks/Fibers/GpTaskFiberCtx.hpp` (`GpTaskFiberCtx`),
* `Utils/Streams/GpBitWriterStorage.hpp` (`GpBitWriterStorage`),

followed by the properties established about them.
-/

namespace GPlatform

/-! ## Stack blocks and the pooled stack adapter (boost_context.hpp) -/

/-- The stack block descriptor `boost::context::stack_context`: the size of the
block and its stack pointer (an address; `0` is `nullptr`). -/
structure StackContextT where
  size : Nat
  sp : Nat
  deriving DecidableEq, Repr

/-- The class `GpPooledStack` of boost_context.hpp, lines 32-50: one private member,
the wrapped stack block. -/
structure GpPooledStack where
  iStackContext : StackContextT
  deriving DecidableEq, Repr

/-- The constructor `GpPooledStack(StackContextT aStackContext)`, line 35. -/
def GpPooledStack.ctor (aStackContext : StackContextT) : GpPooledStack :=
  { iStackContext := aStackContext }

/-- The method `StackContextT allocate(void)`, lines 38-41: returns the member by value.
The method is not const, so the provider after the call is returned as well. -/
def GpPooledStack.allocate (p : GpPooledStack) : StackContextT × GpPooledStack :=
  (p.iStackContext, p)

/-- The method `void deallocate(StackContextT&)`, lines 43-46: the body is empty.
The argument is a mutable reference, so its value after the call is returned
together with the provider after the call. -/
def GpPooledStack.deallocate (p : GpPooledStack) (x : StackContextT) :
    GpPooledStack × StackContextT :=
  (p, x)

/-- One call made on a stack provider. -/
inductive StackCall where
  | allocate : StackCall
  | deallocate (x : StackContextT) : StackCall
  deriving DecidableEq, Repr

/-- Runs a sequence of calls on a pooled provider, in order, and collects the block
returned by each `allocate()` call (one entry per call, in call order) together with
the provider after the last call. -/
def GpPooledStack.run : List StackCall → GpPooledStack → List StackContextT × GpPooledStack
  | [], p => ([], p)
  | StackCall.allocate :: cs, p =>
      let r := p.allocate
      let rest := GpPooledStack.run cs r.2
      (r.1 :: rest.1, rest.2)
  | StackCall.deallocate x :: cs, p =>
      let r := p.deallocate x
      GpPooledStack.run cs r.1

/-- The number of `allocate()` calls in a sequence of calls. -/
def StackCall.allocations : List StackCall → Nat
  | [] => 0
  | StackCall.allocate :: cs => StackCall.allocations cs + 1
  | StackCall.deallocate _ :: cs => StackCall.allocations cs

/-! ## Task results, stop tokens and the transfer bundle -/

/-- Modelled from the spec: the enumeration `GpTask::Res` (Multithreading/Tasks/GpTask.hpp
is missing from the sources at hand; GpTaskFiberCtx.hpp, line 32, names its member
`WAITING`). The spec gives the closed set Waiting, Done, Failed. -/
inductive GpTask.Res where
  | WAITING : GpTask.Res
  | DONE : GpTask.Res
  | FAILED : GpTask.Res
  deriving DecidableEq, Repr

/-- Modelled from the spec: the cancellation token `GpThreadStopToken`
(Multithreading/Threads/GpThreadStopToken.hpp is missing): a read-only observation of a
cancellation flag, forwarded into the task function and never inspected by the context. -/
structure GpThreadStopToken where
  stop_requested : Bool
  deriving DecidableEq, Repr

/-- The library type `std::exception_ptr`: a handle identifying a captured error. -/
structure ExceptionPtr where
  id : Nat
  deriving DecidableEq, Repr

/-- The behaviour of a task function on its fiber, as seen by the context: it returns
normally, or raises an error, or calls `SYeld` and continues with the rest of its body
once it is resumed. The argument of a `SYeld` call is optional in the C++ declaration
(GpTaskFiberCtx.hpp, line 32); `none` stands for the call `SYeld()` written without an
argument. Every body ends after finitely many calls; a task function that loops for ever
without handing control back, for which `Enter` does not return, is not described. -/
inductive FiberBody where
  | ret : FiberBody
  | raise (e : ExceptionPtr) : FiberBody
  | yield (aRes : Option GpTask.Res) (k : FiberBody) : FiberBody
  deriving DecidableEq, Repr

/-- The handle `FiberT = boost::context::fiber` (boost_context.hpp, line 22) of a
suspended execution: what that execution does when it is resumed. -/
abbrev FiberT := FiberBody

/-- The task function type `FiberRunFnT = std::function<void(GpThreadStopToken)>`
(boost_context.hpp, line 21; GpTaskFiberCtx.hpp, line 22). -/
abbrev FiberRunFnT := GpThreadStopToken → FiberBody

/-- The bundle `FiberArgsT` of boost_context.hpp, lines 24-28: a five component
`GpTuple`. The components have no names in the source; the field names are the ones the
spec gives them, in component order. The component types are those of the source:
the fourth one is a plain `GpTask::Res`, the other four are wrapped in `std::optional`. -/
structure FiberArgsT where
  resumedHandle : Option FiberT
  pendingRunFn : Option FiberRunFnT
  pendingCancellationToken : Option GpThreadStopToken
  lastResult : GpTask.Res
  pendingError : Option ExceptionPtr

/-- One template argument of a `GpTuple`: a type wrapped in `std::optional`, or a type
used as it is. -/
inductive TupleArg where
  | optional (ty : String) : TupleArg
  | plain (ty : String) : TupleArg
  deriving DecidableEq, Repr

/-- Whether a template argument is wrapped in `std::optional`. -/
def TupleArg.isOptional : TupleArg → Bool
  | TupleArg.optional _ => true
  | TupleArg.plain _ => false

/-- The template argument list of `FiberArgsT`, boost_context.hpp, lines 24-28, in
source order. -/
def FiberArgsT.templateArgs : List TupleArg :=
  [TupleArg.optional "FiberT",
   TupleArg.optional "FiberRunFnT",
   TupleArg.optional "GpThreadStopToken",
   TupleArg.plain "GpTask::Res",
   TupleArg.optional "std::exception_ptr"]

/-- The names the spec gives to the components of the bundle, in order. -/
def FiberArgsT.fieldNames : List String :=
  ["resumedHandle", "pendingRunFn", "pendingCancellationToken", "lastResult", "pendingError"]

/-- For a bundle value, which of its components hold no value, in component order.
A `std::optional` component is absent when it is empty; the fourth component is a
`GpTask::Res` by value and is present in every bundle. -/
def FiberArgsT.absent (b : FiberArgsT) : List Bool :=
  [b.resumedHandle.isNone,
   b.pendingRunFn.isNone,
   b.pendingCancellationToken.isNone,
   false,
   b.pendingError.isNone]

/-- Modelled from the spec: the bundle that crosses a transfer from the fiber back to
the caller of `Enter` (the code that fills the bundle, GpTaskFiberCtx.cpp, is missing).
After the first entry only `lastResult` and, on failure, `pendingError` cross the
boundary. -/
def FiberArgsT.back (aRes : GpTask.Res) (err : Option ExceptionPtr) : FiberArgsT :=
  { resumedHandle := none
    pendingRunFn := none
    pendingCancellationToken := none
    lastResult := aRes
    pendingError := err }

/-! ## The fiber execution context (GpTaskFiberCtx.hpp) -/

/-- Modelled from the spec: the phase of a fiber execution context. The header keeps no
such member; the spec lists it in the data model. -/
inductive Phase where
  | Unstarted : Phase
  | Suspended : Phase
  | Running : Phase
  | Completed : Phase
  | Failed : Phase
  deriving DecidableEq, Repr

/-- Modelled from the spec: the error kinds of the context operations. A task error is
not among them: it is turned into data inside the fiber. -/
inductive FiberError where
  | AllocationError : FiberError
  | UsageError : FiberError
  deriving DecidableEq, Repr

/-- The class `GpTaskFiberCtx`, GpTaskFiberCtx.hpp, lines 34-37. `iFiberPtr` is `none`
for `nullptr` and otherwise points at the fiber handle kept in the inline buffer
`iFiberStorage` (the saved control state); `iStack` is the shared pointer to the stack
block, `none` when null. The member `phase` is modelled from the spec. -/
structure GpTaskFiberCtx where
  iFiberPtr : Option FiberT
  iStack : Option StackContextT
  phase : Phase
  deriving DecidableEq, Repr

/-- Modelled from the spec: the constructor `GpTaskFiberCtx(void) noexcept`, whose body
(GpTaskFiberCtx.cpp) is missing. The header initialises `iFiberPtr = nullptr` and
default-constructs `iStack`; the spec says the context is constructed empty, Unstarted,
with no stack. -/
def GpTaskFiberCtx.ctor : GpTaskFiberCtx :=
  { iFiberPtr := none, iStack := none, phase := Phase.Unstarted }

/-- Modelled from the spec: `GpTaskFiberCtx::Init`, whose body (GpTaskFiberCtx.cpp) is
missing. It acquires one stack block from the configured stack provider; `alloc` is the
outcome of that provider's `allocate()` (`none` when no memory is available). Calling it
while a stack is already held is a usage error. -/
def GpTaskFiberCtx.Init (alloc : Option StackContextT) (c : GpTaskFiberCtx) :
    Except FiberError GpTaskFiberCtx :=
  match c.iStack with
  | some _ => Except.error FiberError.UsageError
  | none =>
    match alloc with
    | none => Except.error FiberError.AllocationError
    | some b => Except.ok { c with iStack := some b }

/-- Modelled from the spec: `GpTaskFiberCtx::Clear`, declared `noexcept`, whose body
(GpTaskFiberCtx.cpp) is missing. It tears the fiber down from any state: the stack block
is released, the control state is dropped and the phase is reset to Unstarted. -/
def GpTaskFiberCtx.Clear (c : GpTaskFiberCtx) : GpTaskFiberCtx :=
  { c with iFiberPtr := none, iStack := none, phase := Phase.Unstarted }

/-- Modelled from the spec: the first half of `GpTaskFiberCtx::Enter` (body missing), up
to the control transfer into the fiber. From Unstarted, with a stack held, the fiber
starts executing `aRunFn(aStopToken)`; from Suspended the fiber continues at its recorded
suspension point and both arguments are ignored; any other phase, or entering before
`Init`, is a usage error. -/
def GpTaskFiberCtx.EnterBegin (aStopToken : GpThreadStopToken) (aRunFn : FiberRunFnT)
    (c : GpTaskFiberCtx) : Except FiberError GpTaskFiberCtx :=
  match c.phase with
  | Phase.Unstarted =>
    match c.iStack with
    | none => Except.error FiberError.UsageError
    | some _ =>
      Except.ok { c with iFiberPtr := some (aRunFn aStopToken), phase := Phase.Running }
  | Phase.Suspended => Except.ok { c with phase := Phase.Running }
  | _ => Except.error FiberError.UsageError

/-- Modelled from the spec: the static `GpTaskFiberCtx::SYeld` (body missing), called
from inside the running fiber of context `c`. The declaration, GpTaskFiberCtx.hpp line
32, gives the parameter the default value `GpTask::Res::WAITING`, used when the call has
no argument (`aRes = none`). The result is recorded, the phase becomes Suspended, the
rest `k` of the task body is the saved control state, and the bundle is handed back to
the caller of the most recent `Enter`. -/
def GpTaskFiberCtx.SYeld (aRes : Option GpTask.Res) (k : FiberT) (c : GpTaskFiberCtx) :
    GpTaskFiberCtx × FiberArgsT :=
  let res := aRes.getD GpTask.Res.WAITING
  ({ c with iFiberPtr := some k, phase := Phase.Suspended }, FiberArgsT.back res none)

/-- Modelled from the spec: the fiber of a Running context executes until it hands
control back. A `SYeld` call suspends it; a normal return completes it with the result
Done; a raised error is caught inside the fiber, stored as the pending error of the
bundle, and reported as the result Failed. -/
def GpTaskFiberCtx.FiberRun (c : GpTaskFiberCtx) :
    Except FiberError (GpTaskFiberCtx × FiberArgsT) :=
  match c.phase, c.iFiberPtr with
  | Phase.Running, some (FiberBody.yield aRes k) => Except.ok (GpTaskFiberCtx.SYeld aRes k c)
  | Phase.Running, some FiberBody.ret =>
    Except.ok ({ c with iFiberPtr := none, phase := Phase.Completed },
               FiberArgsT.back GpTask.Res.DONE none)
  | Phase.Running, some (FiberBody.raise e) =>
    Except.ok ({ c with iFiberPtr := none, phase := Phase.Failed },
               FiberArgsT.back GpTask.Res.FAILED (some e))
  | _, _ => Except.error FiberError.UsageError

/-- Modelled from the spec: `GpTaskFiberCtx::Enter` (body missing) together with the
bundle that came back across the transfer: control goes into the fiber, the fiber runs
until it hands control back. -/
def GpTaskFiberCtx.EnterBundle (aStopToken : GpThreadStopToken) (aRunFn : FiberRunFnT)
    (c : GpTaskFiberCtx) : Except FiberError (GpTaskFiberCtx × FiberArgsT) :=
  match GpTaskFiberCtx.EnterBegin aStopToken aRunFn c with
  | Except.error err => Except.error err
  | Except.ok c1 => GpTaskFiberCtx.FiberRun c1

/-- Modelled from the spec: `GpTask::Res Enter(aStopToken, aRunFn)`, GpTaskFiberCtx.hpp
lines 30-31 (body missing): the task result carried by the bundle that came back, and
the context after the call. -/
def GpTaskFiberCtx.Enter (aStopToken : GpThreadStopToken) (aRunFn : FiberRunFnT)
    (c : GpTaskFiberCtx) : Except FiberError (GpTask.Res × GpTaskFiberCtx) :=
  match GpTaskFiberCtx.EnterBundle aStopToken aRunFn c with
  | Except.error err => Except.error err
  | Except.ok (c1, b) => Except.ok (b.lastResult, c1)

/-- Successive `Enter` calls on one context, one per element of the list of argument
pairs, collecting the bundle each call brought back. A usage error ends the run. -/
def GpTaskFiberCtx.EnterAllBundles :
    List (GpThreadStopToken × FiberRunFnT) → GpTaskFiberCtx →
      Except FiberError (List FiberArgsT × GpTaskFiberCtx)
  | [], c => Except.ok ([], c)
  | (tok, fn) :: rest, c =>
    match GpTaskFiberCtx.EnterBundle tok fn c with
    | Except.error err => Except.error err
    | Except.ok (c1, b) =>
      match GpTaskFiberCtx.EnterAllBundles rest c1 with
      | Except.error err => Except.error err
      | Except.ok (bs, c2) => Except.ok (b :: bs, c2)

/-- Successive `Enter` calls on one context, collecting the result of each call. -/
def GpTaskFiberCtx.EnterAll :
    List (GpThreadStopToken × FiberRunFnT) → GpTaskFiberCtx →
      Except FiberError (List GpTask.Res × GpTaskFiberCtx)
  | [], c => Except.ok ([], c)
  | (tok, fn) :: rest, c =>
    match GpTaskFiberCtx.Enter tok fn c with
    | Except.error err => Except.error err
    | Except.ok (r, c1) =>
      match GpTaskFiberCtx.EnterAll rest c1 with
      | Except.error err => Except.error err
      | Except.ok (rs, c2) => Except.ok (r :: rs, c2)

/-- A task body that calls `SYeld(r)` for each `r` of the list, in order, and then
goes on as `last`. -/
def FiberBody.yields : List GpTask.Res → FiberBody → FiberBody
  | [], last => last
  | r :: rs, last => FiberBody.yield (some r) (FiberBody.yields rs last)

/-- One operation on a fiber execution context. `EnterBegin` and `FiberRun` are the two
halves of `Enter`, so that the Running phase between them is a state of its own;
`Yield` is a `SYeld` call made by the running fiber, with the rest of its body. -/
inductive CtxOp where
  | Init (alloc : Option StackContextT) : CtxOp
  | Enter (tok : GpThreadStopToken) (fn : FiberRunFnT) : CtxOp
  | EnterBegin (tok : GpThreadStopToken) (fn : FiberRunFnT) : CtxOp
  | Yield (aRes : Option GpTask.Res) (k : FiberT) : CtxOp
  | FiberRun : CtxOp
  | Clear : CtxOp

/-- Applies one operation. `SYeld` is callable only from inside a running fiber. -/
def CtxOp.apply : CtxOp → GpTaskFiberCtx → Except FiberError GpTaskFiberCtx
  | CtxOp.Init alloc, c => GpTaskFiberCtx.Init alloc c
  | CtxOp.Enter tok fn, c =>
    match GpTaskFiberCtx.Enter tok fn c with
    | Except.error err => Except.error err
    | Except.ok (_, c1) => Except.ok c1
  | CtxOp.EnterBegin tok fn, c => GpTaskFiberCtx.EnterBegin tok fn c
  | CtxOp.Yield aRes k, c =>
    match c.phase with
    | Phase.Running => Except.ok (GpTaskFiberCtx.SYeld aRes k c).1
    | _ => Except.error FiberError.UsageError
  | CtxOp.FiberRun, c =>
    match GpTaskFiberCtx.FiberRun c with
    | Except.error err => Except.error err
    | Except.ok (c1, _) => Except.ok c1
  | CtxOp.Clear, c => Except.ok (GpTaskFiberCtx.Clear c)

/-- Applies a sequence of operations in order; a failing operation ends the run. A
usage error is fatal, and an `Init` that fails with an allocation error leaves the
context as it was, so the contexts reached by successful runs are all there are. -/
def CtxOp.run : List CtxOp → GpTaskFiberCtx → Except FiberError GpTaskFiberCtx
  | [], c => Except.ok c
  | op :: ops, c =>
    match op.apply c with
    | Except.error err => Except.error err
    | Except.ok c1 => CtxOp.run ops c1

/-! ## Bit writer storage (GpBitWriterStorage.hpp) -/

/-- The subtraction of the bit-count unit type `size_bit_t` used by `iLeft -= aValue`.
The declaration of `size_bit_t` (Types/GpTypes.hpp) is not part of the sources at hand,
so the width `w` of its underlying unsigned counter is a parameter; values are natural
numbers below `2 ^ w` and the difference is taken modulo `2 ^ w`. Whenever
`b ≤ a < 2 ^ w` this is the exact difference, which is also what a subtraction that
checks for underflow yields. -/
def size_bit_t.sub (w a b : Nat) : Nat :=
  (a + 2 ^ w - b % 2 ^ w) % 2 ^ w

/-- The private members of `GpBitWriterStorage`, lines 35-39, in declaration order.
The data pointer is an address (`0` is `nullptr`), the three `size_bit_t` members are
bit counts. -/
structure GpBitWriterStorage where
  iData : Nat
  iSize : Nat
  iOffset : Nat
  iLeft : Nat
  deriving DecidableEq, Repr

/-- The three argument constructor, lines 48-56. Members are initialised in declaration
order, so `iLeft(iSize)` reads the member `iSize` that was just set from `aSize`. -/
def GpBitWriterStorage.ctor3 (aData aSize aOffset : Nat) : GpBitWriterStorage :=
  let iData := aData
  let iSize := aSize
  let iOffset := aOffset
  let iLeft := iSize
  { iData := iData, iSize := iSize, iOffset := iOffset, iLeft := iLeft }

/-- The two argument constructor, lines 42-46: delegates to the three argument one with
the literal `0_bit`. -/
def GpBitWriterStorage.ctor2 (aData aSize : Nat) : GpBitWriterStorage :=
  GpBitWriterStorage.ctor3 aData aSize 0

/-- The accessor `Data()`, lines 21-22. -/
def GpBitWriterStorage.Data (s : GpBitWriterStorage) : Nat := s.iData

/-- The accessor `Size()`, line 23. -/
def GpBitWriterStorage.Size (s : GpBitWriterStorage) : Nat := s.iSize

/-- The accessor `Offset()`, line 24. -/
def GpBitWriterStorage.Offset (s : GpBitWriterStorage) : Nat := s.iOffset

/-- The accessor `Left()`, line 25. -/
def GpBitWriterStorage.Left (s : GpBitWriterStorage) : Nat := s.iLeft

/-- The method `SetLeftSub(aValue)`, line 26: `iLeft -= aValue`. -/
def GpBitWriterStorage.SetLeftSub (w : Nat) (s : GpBitWriterStorage) (aValue : Nat) :
    GpBitWriterStorage :=
  { s with iLeft := size_bit_t.sub w s.iLeft aValue }

/-! ## Properties of the pooled stack adapter -/

/-- Running any sequence of calls on a pooled provider returns the wrapped block once
per `allocate()` call and leaves the provider as it was. -/
theorem GpPooledStack.run_eq (calls : List StackCall) (p : GpPooledStack) :
    GpPooledStack.run calls p
      = (List.replicate (StackCall.allocations calls) p.iStackContext, p) := by
  induction calls with
  | nil => rfl
  | cons call cs ih =>
    cases call with
    | allocate =>
      simp [GpPooledStack.run, GpPooledStack.allocate, StackCall.allocations, ih,
        List.replicate_succ]
    | deallocate x =>
      simp [GpPooledStack.run, GpPooledStack.deallocate, StackCall.allocations, ih]

/-- C2: for a pooled provider built from a block b and any finite sequence of
allocate() and deallocate(x) calls, the list of blocks returned by the allocate() calls
consists of b once per allocate() call, so every returned block has the stack pointer
and the size of b; a provider wrapping a 64KB block returns that block on both of two
consecutive allocate() calls. -/
theorem GpPooledStack_allocate_returns_wrapped_block (b : StackContextT)
    (calls : List StackCall) (sp : Nat) :
    (GpPooledStack.run calls (GpPooledStack.ctor b)).1
        = List.replicate (StackCall.allocations calls) b
      ∧ (∀ x ∈ (GpPooledStack.run calls (GpPooledStack.ctor b)).1,
          x = b ∧ x.sp = b.sp ∧ x.size = b.size)
      ∧ (GpPooledStack.run [StackCall.allocate, StackCall.allocate]
            (GpPooledStack.ctor { size := 65536, sp := sp })).1
          = [{ size := 65536, sp := sp }, { size := 65536, sp := sp }] := by
  refine ⟨?_, ?_, ?_⟩
  · rw [GpPooledStack.run_eq]; rfl
  · intro x hx
    rw [GpPooledStack.run_eq] at hx
    have hxb : x = b := List.eq_of_mem_replicate hx
    subst hxb
    exact ⟨rfl, rfl, rfl⟩
  · rw [GpPooledStack.run_eq]; rfl

/-- C5: deallocate is a no-op for every argument: for every provider p and every block
x, after the call the provider is p itself (it still wraps the same block, which the
next allocate() returns) and x has the same stack pointer and size as before. -/
theorem GpPooledStack_deallocate_is_nop (p : GpPooledStack) (x : StackContextT) :
    p.deallocate x = (p, x)
      ∧ (p.deallocate x).1.iStackContext = p.iStackContext
      ∧ (p.deallocate x).2.sp = x.sp
      ∧ (p.deallocate x).2.size = x.size
      ∧ ((p.deallocate x).1.allocate).1 = p.iStackContext
      ∧ ((GpPooledStack.ctor x).deallocate x).1 = GpPooledStack.ctor x := by
  simp [GpPooledStack.deallocate, GpPooledStack.allocate]

/-! ## Properties of the bit writer storage -/

/-- The unit subtraction is the exact difference when nothing underflows. -/
theorem size_bit_t.sub_exact (w a b : Nat) (ha : a < 2 ^ w) (hb : b ≤ a) :
    size_bit_t.sub w a b = a - b := by
  unfold size_bit_t.sub
  have hbw : b < 2 ^ w := lt_of_le_of_lt hb ha
  rw [Nat.mod_eq_of_lt hbw]
  have h1 : a + 2 ^ w - b = (a - b) + 2 ^ w := by omega
  rw [h1, Nat.add_mod_right]
  exact Nat.mod_eq_of_lt (lt_of_le_of_lt (Nat.sub_le a b) ha)

/-- C9: a storage constructed with (d, s, o) reports Data = d, Size = s, Offset = o and
Left = s, whatever the offset; the two argument construction (d, s) equals the three
argument construction (d, s, 0), so its Offset is 0 and its Left is s. -/
theorem GpBitWriterStorage_ctor_accessors (d s o : Nat) :
    (GpBitWriterStorage.ctor3 d s o).Data = d
      ∧ (GpBitWriterStorage.ctor3 d s o).Size = s
      ∧ (GpBitWriterStorage.ctor3 d s o).Offset = o
      ∧ (GpBitWriterStorage.ctor3 d s o).Left = s
      ∧ GpBitWriterStorage.ctor2 d s = GpBitWriterStorage.ctor3 d s 0
      ∧ (GpBitWriterStorage.ctor2 d s).Data = d
      ∧ (GpBitWriterStorage.ctor2 d s).Size = s
      ∧ (GpBitWriterStorage.ctor2 d s).Offset = 0
      ∧ (GpBitWriterStorage.ctor2 d s).Left = s := by
  simp [GpBitWriterStorage.ctor3, GpBitWriterStorage.ctor2, GpBitWriterStorage.Data,
    GpBitWriterStorage.Size, GpBitWriterStorage.Offset, GpBitWriterStorage.Left]

/-- C10: for a storage whose remaining count is representable in the w bit counter and
every v with v <= Left(), SetLeftSub(v) leaves Left() equal to the previous Left() minus
v and leaves Data(), Size() and Offset() unchanged, and keeps Left() <= Size() when it
held before; and for v1 + v2 <= Left(), SetLeftSub(v1) followed by SetLeftSub(v2) yields
the same state as SetLeftSub(v1 + v2). -/
theorem GpBitWriterStorage_SetLeftSub_frame (w : Nat) (s : GpBitWriterStorage)
    (hrep : s.Left < 2 ^ w) :
    (∀ v, v ≤ s.Left →
        (s.SetLeftSub w v).Left = s.Left - v
          ∧ (s.SetLeftSub w v).Data = s.Data
          ∧ (s.SetLeftSub w v).Size = s.Size
          ∧ (s.SetLeftSub w v).Offset = s.Offset
          ∧ (s.Left ≤ s.Size → (s.SetLeftSub w v).Left ≤ s.Size))
      ∧ (∀ v1 v2, v1 + v2 ≤ s.Left →
          (s.SetLeftSub w v1).SetLeftSub w v2 = s.SetLeftSub w (v1 + v2)) := by
  simp only [GpBitWriterStorage.Left] at hrep
  refine ⟨?_, ?_⟩
  · intro v hv
    simp only [GpBitWriterStorage.Left] at hv
    have hsub := size_bit_t.sub_exact w s.iLeft v hrep hv
    have hleft : (s.SetLeftSub w v).Left = s.iLeft - v := hsub
    refine ⟨hleft, rfl, rfl, rfl, ?_⟩
    intro hle
    rw [hleft]
    simp only [GpBitWriterStorage.Left, GpBitWriterStorage.Size] at hle ⊢
    omega
  · intro v1 v2 hv
    simp only [GpBitWriterStorage.Left] at hv
    have h1 := size_bit_t.sub_exact w s.iLeft v1 hrep (by omega)
    have h2 := size_bit_t.sub_exact w (s.iLeft - v1) v2 (by omega) (by omega)
    have h3 := size_bit_t.sub_exact w s.iLeft (v1 + v2) hrep hv
    simp only [GpBitWriterStorage.SetLeftSub, h1, h2, h3]
    congr 1
    omega

/-- Witness for C10: a 64 bit counter, a storage of 4096 bits at address 1000 with
offset 3, from which 100 and then 28 bits are taken. -/
theorem GpBitWriterStorage_SetLeftSub_frame_witness :
    (GpBitWriterStorage.ctor3 1000 4096 3).Left < 2 ^ 64
      ∧ ((GpBitWriterStorage.ctor3 1000 4096 3).SetLeftSub 64 100).Left = 3996
      ∧ (((GpBitWriterStorage.ctor3 1000 4096 3).SetLeftSub 64 100).SetLeftSub 64 28
          = (GpBitWriterStorage.ctor3 1000 4096 3).SetLeftSub 64 (100 + 28)) :=
  ⟨by decide,
   ((GpBitWriterStorage_SetLeftSub_frame 64 (GpBitWriterStorage.ctor3 1000 4096 3)
      (by decide)).1 100 (by decide)).1,
   (GpBitWriterStorage_SetLeftSub_frame 64 (GpBitWriterStorage.ctor3 1000 4096 3)
      (by decide)).2 100 28 (by decide)⟩

/-! ## Properties of the transfer bundle -/

/-- Counterexample for C8: the fourth template argument of the bundle, the one the spec
calls lastResult, is a plain GpTask::Res and not a std::optional, and no bundle value
has this component absent. -/
theorem FiberArgsT_lastResult_is_not_optional :
    FiberArgsT.templateArgs[3]? = some (TupleArg.plain "GpTask::Res")
      ∧ FiberArgsT.fieldNames[3]? = some "lastResult"
      ∧ ¬ (∀ a ∈ FiberArgsT.templateArgs, a.isOptional = true)
      ∧ ¬ (∃ b : FiberArgsT, b.absent[3]? = some true) := by
  refine ⟨rfl, rfl, ?_, ?_⟩
  · intro h
    have h3 := h (TupleArg.plain "GpTask::Res") (by simp [FiberArgsT.templateArgs])
    simp [TupleArg.isOptional] at h3
  · rintro ⟨b, hb⟩
    simp [FiberArgsT.absent] at hb

/-- C8, amended: the bundle has exactly five components, named by the spec
resumedHandle, pendingRunFn, pendingCancellationToken, lastResult, pendingError in that
order; the first, second, third and fifth are optional and each of them is absent in
some bundle value, while the fourth, lastResult, is a plain task result that is present
in every bundle value. -/
theorem FiberArgsT_components :
    FiberArgsT.templateArgs.length = 5
      ∧ FiberArgsT.fieldNames.zip (FiberArgsT.templateArgs.map TupleArg.isOptional)
          = [("resumedHandle", true), ("pendingRunFn", true),
             ("pendingCancellationToken", true), ("lastResult", false),
             ("pendingError", true)]
      ∧ (∀ b : FiberArgsT, b.absent.length = 5)
      ∧ (∀ i ∈ [0, 1, 2, 4], ∃ b : FiberArgsT, b.absent[i]? = some true)
      ∧ (∀ b : FiberArgsT, b.absent[3]? = some false) := by
  refine ⟨rfl, rfl, fun _ => rfl, ?_, fun _ => rfl⟩
  intro i hi
  refine ⟨FiberArgsT.back GpTask.Res.DONE none, ?_⟩
  simp only [List.mem_cons, List.mem_singleton, List.not_mem_nil, or_false] at hi
  rcases hi with h | h | h | h <;> subst h <;> rfl

/-! ## Properties of the fiber execution context -/

/-- A context on which the next call `Enter(tok, fn)` makes the fiber execute `body`:
either it is Unstarted, holds a stack, and `fn(tok)` is `body`, or it is Suspended with
`body` as its saved control state. -/
def GpTaskFiberCtx.Ready (c : GpTaskFiberCtx) (tok : GpThreadStopToken) (fn : FiberRunFnT)
    (body : FiberBody) : Prop :=
  (c.phase = Phase.Unstarted ∧ c.iStack.isSome = true ∧ fn tok = body)
    ∨ (c.phase = Phase.Suspended ∧ c.iFiberPtr = some body)

/-- Entering a ready context puts its fiber in the Running phase, about to run `body`. -/
theorem GpTaskFiberCtx.EnterBegin_of_Ready {c : GpTaskFiberCtx} {tok : GpThreadStopToken}
    {fn : FiberRunFnT} {body : FiberBody} (h : c.Ready tok fn body) :
    GpTaskFiberCtx.EnterBegin tok fn c
      = Except.ok { c with iFiberPtr := some body, phase := Phase.Running } := by
  obtain ⟨fp, st, ph⟩ := c
  rcases h with ⟨hph, hst, hfn⟩ | ⟨hph, hfp⟩
  · simp only at hph hst hfn
    subst hph hfn
    cases st with
    | none => simp at hst
    | some b => rfl
  · simp only at hph hfp
    subst hph hfp
    rfl

/-- A ready context whose fiber is about to call `SYeld` hands back the yielded result
and is Suspended afterwards, with the rest of the body saved. -/
theorem GpTaskFiberCtx.EnterBundle_yield {c : GpTaskFiberCtx} {tok : GpThreadStopToken}
    {fn : FiberRunFnT} {aRes : Option GpTask.Res} {k : FiberBody}
    (h : c.Ready tok fn (FiberBody.yield aRes k)) :
    GpTaskFiberCtx.EnterBundle tok fn c
      = Except.ok ({ c with iFiberPtr := some k, phase := Phase.Suspended },
          FiberArgsT.back (aRes.getD GpTask.Res.WAITING) none) := by
  simp [GpTaskFiberCtx.EnterBundle, GpTaskFiberCtx.EnterBegin_of_Ready h,
    GpTaskFiberCtx.FiberRun, GpTaskFiberCtx.SYeld]

/-- A ready context whose fiber is about to return hands back Done and is Completed. -/
theorem GpTaskFiberCtx.EnterBundle_ret {c : GpTaskFiberCtx} {tok : GpThreadStopToken}
    {fn : FiberRunFnT} (h : c.Ready tok fn FiberBody.ret) :
    GpTaskFiberCtx.EnterBundle tok fn c
      = Except.ok ({ c with iFiberPtr := none, phase := Phase.Completed },
          FiberArgsT.back GpTask.Res.DONE none) := by
  simp [GpTaskFiberCtx.EnterBundle, GpTaskFiberCtx.EnterBegin_of_Ready h,
    GpTaskFiberCtx.FiberRun]

/-- A ready context whose fiber is about to raise hands back Failed with the error as
the pending error of the bundle and is in phase Failed. -/
theorem GpTaskFiberCtx.EnterBundle_raise {c : GpTaskFiberCtx} {tok : GpThreadStopToken}
    {fn : FiberRunFnT} {e : ExceptionPtr} (h : c.Ready tok fn (FiberBody.raise e)) :
    GpTaskFiberCtx.EnterBundle tok fn c
      = Except.ok ({ c with iFiberPtr := none, phase := Phase.Failed },
          FiberArgsT.back GpTask.Res.FAILED (some e)) := by
  simp [GpTaskFiberCtx.EnterBundle, GpTaskFiberCtx.EnterBegin_of_Ready h,
    GpTaskFiberCtx.FiberRun]

/-- The results of successive `Enter` calls are the results carried by the bundles. -/
theorem GpTaskFiberCtx.EnterAll_eq_map (calls : List (GpThreadStopToken × FiberRunFnT))
    (c : GpTaskFiberCtx) :
    GpTaskFiberCtx.EnterAll calls c
      = match GpTaskFiberCtx.EnterAllBundles calls c with
        | Except.error err => Except.error err
        | Except.ok (bs, c1) => Except.ok (bs.map FiberArgsT.lastResult, c1) := by
  induction calls generalizing c with
  | nil => rfl
  | cons call rest ih =>
    obtain ⟨tok, fn⟩ := call
    simp only [GpTaskFiberCtx.EnterAll, GpTaskFiberCtx.EnterAllBundles,
      GpTaskFiberCtx.Enter]
    cases hb : GpTaskFiberCtx.EnterBundle tok fn c with
    | error err => rfl
    | ok r =>
      obtain ⟨c1, b⟩ := r
      simp only [ih c1]
      cases hr : GpTaskFiberCtx.EnterAllBundles rest c1 with
      | error err => rfl
      | ok r2 => rfl

/-- Successive `Enter` calls on a ready context whose fiber yields the results `rs` and
then goes on as `last`, where `last` ends the fiber in phase `ph` with the bundle `bl`:
the calls bring back one bundle per yield, in order, followed by `bl`. -/
theorem GpTaskFiberCtx.EnterAllBundles_yields (last : FiberBody) (ph : Phase)
    (bl : FiberArgsT)
    (hlast : ∀ (c : GpTaskFiberCtx) (tok : GpThreadStopToken) (fn : FiberRunFnT),
      c.Ready tok fn last →
        GpTaskFiberCtx.EnterBundle tok fn c
          = Except.ok ({ c with iFiberPtr := none, phase := ph }, bl))
    (rs : List GpTask.Res) :
    ∀ (tok : GpThreadStopToken) (fn : FiberRunFnT)
      (rest : List (GpThreadStopToken × FiberRunFnT)) (c : GpTaskFiberCtx),
      c.Ready tok fn (FiberBody.yields rs last) → rest.length = rs.length →
        GpTaskFiberCtx.EnterAllBundles ((tok, fn) :: rest) c
          = Except.ok (rs.map (fun r => FiberArgsT.back r none) ++ [bl],
              { c with iFiberPtr := none, phase := ph }) := by
  induction rs with
  | nil =>
    intro tok fn rest c hready hlen
    have hrest : rest = [] := List.length_eq_zero.mp hlen
    subst hrest
    simp only [FiberBody.yields] at hready
    simp [GpTaskFiberCtx.EnterAllBundles, hlast c tok fn hready]
  | cons r rs ih =>
    intro tok fn rest c hready hlen
    cases rest with
    | nil => simp at hlen
    | cons call rest =>
      obtain ⟨tok1, fn1⟩ := call
      simp only [FiberBody.yields] at hready
      have hnext : GpTaskFiberCtx.Ready
          { c with iFiberPtr := some (FiberBody.yields rs last), phase := Phase.Suspended }
          tok1 fn1 (FiberBody.yields rs last) := Or.inr ⟨rfl, rfl⟩
      have hlen1 : rest.length = rs.length := by simpa using hlen
      have hrec := ih tok1 fn1 rest _ hnext hlen1
      rw [GpTaskFiberCtx.EnterAllBundles, GpTaskFiberCtx.EnterBundle_yield hready]
      simp only [hrec]
      simp

/-- The invariant of the data model: the saved control state is valid exactly in the
phases Suspended and Running. -/
def GpTaskFiberCtx.ControlStateInv (c : GpTaskFiberCtx) : Prop :=
  c.iFiberPtr.isSome = true ↔ (c.phase = Phase.Suspended ∨ c.phase = Phase.Running)

/-- A successful `Init` keeps the invariant: it only sets the stack. -/
theorem GpTaskFiberCtx.ControlStateInv_Init {alloc : Option StackContextT}
    {c c1 : GpTaskFiberCtx} (hinv : c.ControlStateInv)
    (h : GpTaskFiberCtx.Init alloc c = Except.ok c1) : c1.ControlStateInv := by
  obtain ⟨fp, st, ph⟩ := c
  cases st with
  | some b => simp [GpTaskFiberCtx.Init] at h
  | none =>
    cases alloc with
    | none => simp [GpTaskFiberCtx.Init] at h
    | some b =>
      simp only [GpTaskFiberCtx.Init, Except.ok.injEq] at h
      subst h
      exact hinv

/-- The transfer into the fiber keeps the invariant: the context becomes Running with a
valid control state. -/
theorem GpTaskFiberCtx.ControlStateInv_EnterBegin {tok : GpThreadStopToken}
    {fn : FiberRunFnT} {c c1 : GpTaskFiberCtx} (hinv : c.ControlStateInv)
    (h : GpTaskFiberCtx.EnterBegin tok fn c = Except.ok c1) : c1.ControlStateInv := by
  obtain ⟨fp, st, ph⟩ := c
  cases ph <;> cases st <;>
    simp only [GpTaskFiberCtx.EnterBegin, Except.ok.injEq, reduceCtorEq] at h <;>
    subst h <;>
    simp_all [GpTaskFiberCtx.ControlStateInv]

/-- After `SYeld` the context is Suspended with the rest of the body saved. -/
theorem GpTaskFiberCtx.ControlStateInv_SYeld (aRes : Option GpTask.Res) (k : FiberT)
    (c : GpTaskFiberCtx) : (GpTaskFiberCtx.SYeld aRes k c).1.ControlStateInv := by
  simp [GpTaskFiberCtx.SYeld, GpTaskFiberCtx.ControlStateInv]

/-- Whenever the fiber hands control back, the invariant holds: a yield leaves a valid
control state in phase Suspended, a return or a raise leaves none in a final phase. -/
theorem GpTaskFiberCtx.ControlStateInv_FiberRun {c c1 : GpTaskFiberCtx} {b : FiberArgsT}
    (h : GpTaskFiberCtx.FiberRun c = Except.ok (c1, b)) : c1.ControlStateInv := by
  obtain ⟨fp, st, ph⟩ := c
  cases ph <;> try (simp [GpTaskFiberCtx.FiberRun] at h)
  cases fp with
  | none => simp [GpTaskFiberCtx.FiberRun] at h
  | some body =>
    cases body with
    | ret =>
      simp only [GpTaskFiberCtx.FiberRun, Except.ok.injEq, Prod.mk.injEq] at h
      rw [← h.1]
      simp [GpTaskFiberCtx.ControlStateInv]
    | raise e =>
      simp only [GpTaskFiberCtx.FiberRun, Except.ok.injEq, Prod.mk.injEq] at h
      rw [← h.1]
      simp [GpTaskFiberCtx.ControlStateInv]
    | yield aRes k =>
      simp only [GpTaskFiberCtx.FiberRun, Except.ok.injEq] at h
      have h1 : c1 = (GpTaskFiberCtx.SYeld aRes k
          { iFiberPtr := some (FiberBody.yield aRes k), iStack := st,
            phase := Phase.Running }).1 := by rw [h]
      rw [h1]
      exact GpTaskFiberCtx.ControlStateInv_SYeld _ _ _

/-- A cleared context satisfies the invariant. -/
theorem GpTaskFiberCtx.ControlStateInv_Clear (c : GpTaskFiberCtx) :
    (GpTaskFiberCtx.Clear c).ControlStateInv := by
  simp [GpTaskFiberCtx.Clear, GpTaskFiberCtx.ControlStateInv]

/-- Every successful operation keeps the invariant. -/
theorem CtxOp.apply_ControlStateInv {op : CtxOp} {c c1 : GpTaskFiberCtx}
    (hinv : c.ControlStateInv) (h : op.apply c = Except.ok c1) : c1.ControlStateInv := by
  cases op with
  | Init alloc => exact GpTaskFiberCtx.ControlStateInv_Init hinv h
  | Enter tok fn =>
    simp only [CtxOp.apply, GpTaskFiberCtx.Enter, GpTaskFiberCtx.EnterBundle] at h
    cases hb : GpTaskFiberCtx.EnterBegin tok fn c with
    | error err => simp [hb] at h
    | ok c2 =>
      simp only [hb] at h
      cases hr : GpTaskFiberCtx.FiberRun c2 with
      | error err => simp [hr] at h
      | ok r =>
        obtain ⟨c3, b⟩ := r
        simp only [hr, Except.ok.injEq] at h
        subst h
        exact GpTaskFiberCtx.ControlStateInv_FiberRun hr
  | EnterBegin tok fn => exact GpTaskFiberCtx.ControlStateInv_EnterBegin hinv h
  | Yield aRes k =>
    simp only [CtxOp.apply] at h
    cases hph : c.phase <;> simp only [hph, Except.ok.injEq, reduceCtorEq] at h
    subst h
    exact GpTaskFiberCtx.ControlStateInv_SYeld _ _ _
  | FiberRun =>
    simp only [CtxOp.apply] at h
    cases hr : GpTaskFiberCtx.FiberRun c with
    | error err => simp [hr] at h
    | ok r =>
      obtain ⟨c3, b⟩ := r
      simp only [hr, Except.ok.injEq] at h
      subst h
      exact GpTaskFiberCtx.ControlStateInv_FiberRun hr
  | Clear =>
    simp only [CtxOp.apply, Except.ok.injEq] at h
    subst h
    exact GpTaskFiberCtx.ControlStateInv_Clear c

/-- Every successful sequence of operations keeps the invariant. -/
theorem CtxOp.run_ControlStateInv (ops : List CtxOp) :
    ∀ {c c1 : GpTaskFiberCtx}, c.ControlStateInv → CtxOp.run ops c = Except.ok c1 →
      c1.ControlStateInv := by
  induction ops with
  | nil =>
    intro c c1 hinv h
    simp only [CtxOp.run, Except.ok.injEq] at h
    subst h
    exact hinv
  | cons op ops ih =>
    intro c c1 hinv h
    simp only [CtxOp.run] at h
    cases ha : op.apply c with
    | error err => simp [ha] at h
    | ok c2 =>
      simp only [ha] at h
      exact ih (CtxOp.apply_ControlStateInv hinv ha) h

/-- C1: for a task function that calls Yield(r1), ..., Yield(rn) and then returns
normally, successive Enter calls on an initialised context (Unstarted, holding a stack)
all succeed and return exactly r1, ..., rn, Done in that order, one result per call;
the context is Completed afterwards. -/
theorem Enter_returns_yields_then_DONE (rs : List GpTask.Res) (tok : GpThreadStopToken)
    (fn : FiberRunFnT) (rest : List (GpThreadStopToken × FiberRunFnT))
    (c : GpTaskFiberCtx) (b : StackContextT)
    (hph : c.phase = Phase.Unstarted) (hst : c.iStack = some b)
    (hfn : fn tok = FiberBody.yields rs FiberBody.ret)
    (hlen : rest.length = rs.length) :
    GpTaskFiberCtx.EnterAll ((tok, fn) :: rest) c
      = Except.ok (rs ++ [GpTask.Res.DONE],
          { iFiberPtr := none, iStack := some b, phase := Phase.Completed }) := by
  have hready : c.Ready tok fn (FiberBody.yields rs FiberBody.ret) :=
    Or.inl ⟨hph, by simp [hst], hfn⟩
  have hall := GpTaskFiberCtx.EnterAllBundles_yields FiberBody.ret Phase.Completed
    (FiberArgsT.back GpTask.Res.DONE none)
    (fun c1 tok1 fn1 h1 => GpTaskFiberCtx.EnterBundle_ret h1) rs tok fn rest c hready hlen
  rw [GpTaskFiberCtx.EnterAll_eq_map, hall]
  obtain ⟨fp, st, ph⟩ := c
  simp only at hst
  subst hst
  simp [FiberArgsT.back, Function.comp_def]

/-- Witness for C1, the scenario of the spec: Init, then Enter with a task function that
calls Yield(Waiting) once and returns. The first Enter returns Waiting and the second
Enter, whose arguments are ignored, returns Done. -/
theorem Enter_returns_yields_then_DONE_witness :
    GpTaskFiberCtx.Init (some { size := 65536, sp := 4096 }) GpTaskFiberCtx.ctor
        = Except.ok { iFiberPtr := none, iStack := some { size := 65536, sp := 4096 },
                      phase := Phase.Unstarted }
      ∧ GpTaskFiberCtx.EnterAll
          [({ stop_requested := false },
              fun _ => FiberBody.yield (some GpTask.Res.WAITING) FiberBody.ret),
           ({ stop_requested := true }, fun _ => FiberBody.raise { id := 7 })]
          { iFiberPtr := none, iStack := some { size := 65536, sp := 4096 },
            phase := Phase.Unstarted }
        = Except.ok ([GpTask.Res.WAITING, GpTask.Res.DONE],
            { iFiberPtr := none, iStack := some { size := 65536, sp := 4096 },
              phase := Phase.Completed }) :=
  ⟨rfl,
   Enter_returns_yields_then_DONE [GpTask.Res.WAITING] { stop_requested := false }
     (fun _ => FiberBody.yield (some GpTask.Res.WAITING) FiberBody.ret)
     [({ stop_requested := true }, fun _ => FiberBody.raise { id := 7 })]
     { iFiberPtr := none, iStack := some { size := 65536, sp := 4096 },
       phase := Phase.Unstarted }
     { size := 65536, sp := 4096 } rfl rfl rfl rfl⟩

/-- C3: for a task function that raises an error e after any number n >= 0 of Yields,
the first n Enter calls return the yielded results and the Enter call during which the
raise occurs succeeds (nothing propagates out of it) and returns Failed, with e as the
pending error of the bundle that came back; afterwards the context is in phase Failed,
every further Enter is a usage error that produces no result, and so is every other
operation except Clear. -/
theorem Enter_raise_returns_FAILED (rs : List GpTask.Res) (e : ExceptionPtr)
    (tok : GpThreadStopToken) (fn : FiberRunFnT)
    (rest : List (GpThreadStopToken × FiberRunFnT))
    (c : GpTaskFiberCtx) (b : StackContextT)
    (hph : c.phase = Phase.Unstarted) (hst : c.iStack = some b)
    (hfn : fn tok = FiberBody.yields rs (FiberBody.raise e))
    (hlen : rest.length = rs.length) :
    GpTaskFiberCtx.EnterAllBundles ((tok, fn) :: rest) c
        = Except.ok (rs.map (fun r => FiberArgsT.back r none)
              ++ [FiberArgsT.back GpTask.Res.FAILED (some e)],
            { iFiberPtr := none, iStack := some b, phase := Phase.Failed })
      ∧ (FiberArgsT.back GpTask.Res.FAILED (some e)).pendingError = some e
      ∧ GpTaskFiberCtx.EnterAll ((tok, fn) :: rest) c
        = Except.ok (rs ++ [GpTask.Res.FAILED],
            { iFiberPtr := none, iStack := some b, phase := Phase.Failed })
      ∧ (∀ (tok1 : GpThreadStopToken) (fn1 : FiberRunFnT),
          GpTaskFiberCtx.Enter tok1 fn1
              { iFiberPtr := none, iStack := some b, phase := Phase.Failed }
            = Except.error FiberError.UsageError)
      ∧ (∀ op : CtxOp, op ≠ CtxOp.Clear →
          op.apply { iFiberPtr := none, iStack := some b, phase := Phase.Failed }
            = Except.error FiberError.UsageError) := by
  have hready : c.Ready tok fn (FiberBody.yields rs (FiberBody.raise e)) :=
    Or.inl ⟨hph, by simp [hst], hfn⟩
  have hall := GpTaskFiberCtx.EnterAllBundles_yields (FiberBody.raise e) Phase.Failed
    (FiberArgsT.back GpTask.Res.FAILED (some e))
    (fun c1 tok1 fn1 h1 => GpTaskFiberCtx.EnterBundle_raise h1) rs tok fn rest c hready hlen
  have hc : ({ c with iFiberPtr := none, phase := Phase.Failed } : GpTaskFiberCtx)
      = { iFiberPtr := none, iStack := some b, phase := Phase.Failed } := by
    obtain ⟨fp, st, ph⟩ := c
    simp only at hst
    subst hst
    rfl
  rw [hc] at hall
  refine ⟨hall, rfl, ?_, ?_, ?_⟩
  · rw [GpTaskFiberCtx.EnterAll_eq_map, hall]
    simp [FiberArgsT.back, Function.comp_def]
  · intro tok1 fn1
    rfl
  · intro op hop
    cases op with
    | Init alloc => rfl
    | Enter tok1 fn1 => rfl
    | EnterBegin tok1 fn1 => rfl
    | Yield aRes k => rfl
    | FiberRun => rfl
    | Clear => exact absurd rfl hop

/-- Witness for C3: after Init, a task function that calls Yield(Waiting) and then
raises error 7. -/
theorem Enter_raise_returns_FAILED_witness :
    GpTaskFiberCtx.EnterAll
        [({ stop_requested := false },
            fun _ => FiberBody.yield (some GpTask.Res.WAITING) (FiberBody.raise { id := 7 })),
         ({ stop_requested := false }, fun _ => FiberBody.ret)]
        { iFiberPtr := none, iStack := some { size := 65536, sp := 4096 },
          phase := Phase.Unstarted }
      = Except.ok ([GpTask.Res.WAITING, GpTask.Res.FAILED],
          { iFiberPtr := none, iStack := some { size := 65536, sp := 4096 },
            phase := Phase.Failed }) :=
  (Enter_raise_returns_FAILED [GpTask.Res.WAITING] { id := 7 } { stop_requested := false }
     (fun _ => FiberBody.yield (some GpTask.Res.WAITING) (FiberBody.raise { id := 7 }))
     [({ stop_requested := false }, fun _ => FiberBody.ret)]
     { iFiberPtr := none, iStack := some { size := 65536, sp := 4096 },
       phase := Phase.Unstarted }
     { size := 65536, sp := 4096 } rfl rfl rfl rfl).2.2.1

/-- Counterexample for C4: after Init the context is still Unstarted but holds a stack,
and Clear releases that stack, so Clear on this Unstarted context changes it. -/
theorem Clear_changes_initialised_ctx :
    GpTaskFiberCtx.Init (some { size := 65536, sp := 4096 }) GpTaskFiberCtx.ctor
        = Except.ok { iFiberPtr := none, iStack := some { size := 65536, sp := 4096 },
                      phase := Phase.Unstarted }
      ∧ GpTaskFiberCtx.Clear
          { iFiberPtr := none, iStack := some { size := 65536, sp := 4096 },
            phase := Phase.Unstarted }
        ≠ { iFiberPtr := none, iStack := some { size := 65536, sp := 4096 },
            phase := Phase.Unstarted } := by
  refine ⟨rfl, ?_⟩
  decide

/-- C4, amended: Clear is total (it never fails) and, on a context in any phase, leaves
the context in phase Unstarted holding no stack and no control state; Clear followed by
Clear equals a single Clear; and Clear on an Unstarted context that holds no stack and
no control state, such as a freshly constructed one, changes nothing. -/
theorem Clear_resets_ctx (c : GpTaskFiberCtx) :
    (GpTaskFiberCtx.Clear c).phase = Phase.Unstarted
      ∧ (GpTaskFiberCtx.Clear c).iStack = none
      ∧ (GpTaskFiberCtx.Clear c).iFiberPtr = none
      ∧ CtxOp.Clear.apply c = Except.ok (GpTaskFiberCtx.Clear c)
      ∧ GpTaskFiberCtx.Clear (GpTaskFiberCtx.Clear c) = GpTaskFiberCtx.Clear c
      ∧ GpTaskFiberCtx.Clear GpTaskFiberCtx.ctor = GpTaskFiberCtx.ctor
      ∧ (c.phase = Phase.Unstarted → c.iStack = none → c.iFiberPtr = none →
          GpTaskFiberCtx.Clear c = c) := by
  refine ⟨rfl, rfl, rfl, rfl, rfl, rfl, ?_⟩
  intro hph hst hfp
  obtain ⟨fp, st, ph⟩ := c
  simp only at hph hst hfp
  subst hph hst hfp
  rfl

/-- Witness for C4: the freshly constructed context is Unstarted with no stack and no
control state, and Clear leaves it as it is. -/
theorem Clear_resets_ctx_witness :
    GpTaskFiberCtx.ctor.phase = Phase.Unstarted
      ∧ GpTaskFiberCtx.ctor.iStack = none
      ∧ GpTaskFiberCtx.ctor.iFiberPtr = none
      ∧ GpTaskFiberCtx.Clear GpTaskFiberCtx.ctor = GpTaskFiberCtx.ctor :=
  ⟨rfl, rfl, rfl, (Clear_resets_ctx GpTaskFiberCtx.ctor).2.2.2.2.2.2 rfl rfl rfl⟩

/-- C6: in every state reached from a freshly constructed context by any sequence of
Init, Enter (as a whole or in its two halves), Yield and Clear operations, the fiber
handle is valid if and only if the phase is Suspended or Running; and the freshly
constructed context is Unstarted with a null fiber handle and no stack. -/
theorem controlState_valid_iff_Suspended_or_Running (ops : List CtxOp)
    (c : GpTaskFiberCtx) (h : CtxOp.run ops GpTaskFiberCtx.ctor = Except.ok c) :
    (c.iFiberPtr.isSome = true ↔ (c.phase = Phase.Suspended ∨ c.phase = Phase.Running))
      ∧ GpTaskFiberCtx.ctor.phase = Phase.Unstarted
      ∧ GpTaskFiberCtx.ctor.iFiberPtr = none
      ∧ GpTaskFiberCtx.ctor.iStack = none := by
  refine ⟨?_, rfl, rfl, rfl⟩
  have h0 : GpTaskFiberCtx.ctor.ControlStateInv := by
    simp [GpTaskFiberCtx.ControlStateInv, GpTaskFiberCtx.ctor]
  exact CtxOp.run_ControlStateInv ops h0 h

/-- Witness for C6: Init, the first half of Enter, and a Yield of the running fiber
lead to a Suspended context whose fiber handle is valid. -/
theorem controlState_valid_iff_Suspended_or_Running_witness :
    CtxOp.run
        [CtxOp.Init (some { size := 65536, sp := 4096 }),
         CtxOp.EnterBegin { stop_requested := false } (fun _ => FiberBody.ret),
         CtxOp.Yield (some GpTask.Res.WAITING) FiberBody.ret]
        GpTaskFiberCtx.ctor
      = Except.ok { iFiberPtr := some FiberBody.ret,
                    iStack := some { size := 65536, sp := 4096 },
                    phase := Phase.Suspended }
      ∧ ((some FiberBody.ret : Option FiberT).isSome = true ↔
          (Phase.Suspended = Phase.Suspended ∨ Phase.Suspended = Phase.Running)) :=
  ⟨rfl,
   (controlState_valid_iff_Suspended_or_Running
      [CtxOp.Init (some { size := 65536, sp := 4096 }),
       CtxOp.EnterBegin { stop_requested := false } (fun _ => FiberBody.ret),
       CtxOp.Yield (some GpTask.Res.WAITING) FiberBody.ret]
      { iFiberPtr := some FiberBody.ret, iStack := some { size := 65536, sp := 4096 },
        phase := Phase.Suspended } rfl).1⟩

/-- C7: a SYeld call without an argument is a SYeld(WAITING) call. For every context
that Enter has put in the Running phase and whose fiber is at a call SYeld() with no
argument, the call has the same effect and hands back the same bundle as
SYeld(GpTask::Res::WAITING), and the pending Enter returns WAITING and leaves the
context Suspended, exactly as when the fiber is at the call SYeld(WAITING). -/
theorem SYeld_without_argument_is_WAITING (tok : GpThreadStopToken) (fn : FiberRunFnT)
    (c c1 : GpTaskFiberCtx) (k : FiberT)
    (hbegin : GpTaskFiberCtx.EnterBegin tok fn c = Except.ok c1)
    (hcall : c1.iFiberPtr = some (FiberBody.yield none k)) :
    GpTaskFiberCtx.SYeld none k c1 = GpTaskFiberCtx.SYeld (some GpTask.Res.WAITING) k c1
      ∧ (GpTaskFiberCtx.SYeld none k c1).2.lastResult = GpTask.Res.WAITING
      ∧ GpTaskFiberCtx.Enter tok fn c
          = Except.ok (GpTask.Res.WAITING,
              { c1 with iFiberPtr := some k, phase := Phase.Suspended })
      ∧ GpTaskFiberCtx.FiberRun c1
          = GpTaskFiberCtx.FiberRun
              { c1 with iFiberPtr := some (FiberBody.yield (some GpTask.Res.WAITING) k) } := by
  have hrun : c1.phase = Phase.Running := by
    obtain ⟨fp, st, ph⟩ := c
    cases ph <;> cases st <;>
      simp only [GpTaskFiberCtx.EnterBegin, Except.ok.injEq, reduceCtorEq] at hbegin <;>
      subst hbegin <;> rfl
  obtain ⟨fp1, st1, ph1⟩ := c1
  simp only at hrun hcall
  subst hrun hcall
  refine ⟨rfl, rfl, ?_, rfl⟩
  simp [GpTaskFiberCtx.Enter, GpTaskFiberCtx.EnterBundle, hbegin, GpTaskFiberCtx.FiberRun,
    GpTaskFiberCtx.SYeld, FiberArgsT.back]

/-- Witness for C7: an initialised context entered with a task function that calls
SYeld() without an argument and then returns. -/
theorem SYeld_without_argument_is_WAITING_witness :
    GpTaskFiberCtx.Enter { stop_requested := false }
        (fun _ => FiberBody.yield none FiberBody.ret)
        { iFiberPtr := none, iStack := some { size := 65536, sp := 4096 },
          phase := Phase.Unstarted }
      = Except.ok (GpTask.Res.WAITING,
          { iFiberPtr := some FiberBody.ret, iStack := some { size := 65536, sp := 4096 },
            phase := Phase.Suspended }) :=
  (SYeld_without_argument_is_WAITING { stop_requested := false }
     (fun _ => FiberBody.yield none FiberBody.ret)
     { iFiberPtr := none, iStack := some { size := 65536, sp := 4096 },
       phase := Phase.Unstarted }
     { iFiberPtr := some (FiberBody.yield none FiberBody.ret),
       iStack := some { size := 65536, sp := 4096 }, phase := Phase.Running }
     FiberBody.ret rfl rfl).2.2.1

end GPlatform
